import Mathlib

/-!
A verification development of `main.go`, the currency-switch command.

The command takes an amount and two currency codes, validates them, fetches
the rates of the source currency from `open.er-api.com` and prints the
converted amount.

Modelling conventions.

* A Go `string` or `[]byte` is the list of its bytes (`Bytes`), each byte a
  natural number below 256.
* A Go function returning `(v, err)` returns a pair `v × Option Error`; an
  `error` built by `errors.New` is identified with its message.
* `float64` is the type `F64` below, with IEEE 754 round-to-nearest-even
  multiplication.
* Calls into the Go standard library (`strconv.ParseFloat`, the non-ASCII
  branch of `strings.ToUpper`, `json.Unmarshal`) go through a record
  `Stdlib`; the network (`http.Get`, `io.ReadAll`) is a function `Net`. The
  theorems hold for every such record; `goStdlib` is a model of the real
  library and is what the concrete evaluations use.
* The one side effect, the HTTP request, is logged in the `World`.
-/

namespace CurrencySwitch

/-! ## Bytes, errors -/

/-- A Go `string` / `[]byte`: the list of its bytes. -/
abbrev Bytes := List Nat

/-- A Go `error` made by `errors.New`: its message. -/
abbrev Error := String

/-- Error of `validateAmount` (main.go line 62). -/
def InvalidAmount : Error := "Invalid amount. Please provide a valid number."

/-- Error of `validateCurrencyCodes` (main.go line 71). -/
def InvalidCurrencyCode : Error :=
  "Invalid currency code(s). Currency codes must be 3 characters long (e.g., USD)."

/-- Error of `convertCurrency` when `http.Get` fails (main.go line 80). -/
def NetworkError : Error := "Failed to retrieve exchange rates. Please try again later."

/-- Error of `convertCurrency` when `io.ReadAll` fails (main.go line 87). -/
def ReadError : Error := "Failed to read response body"

/-- Error of `convertCurrency` when `json.Unmarshal` fails (main.go line 94). -/
def ParseError : Error := "Failed to unmarshal json"

/-- Error of `convertCurrency` when `Result != "success"` (main.go line 98). -/
def UpstreamError : Error := "Exchange rate api failed to get the rates"

/-- UTF-8 encoding of one rune, as Go's `utf8.AppendRune`: surrogates and
values above U+10FFFF are written as U+FFFD. -/
def utf8EncodeRune (r : Nat) : Bytes :=
  if r < 0x80 then [r]
  else if r < 0x800 then [0xC0 + r / 64, 0x80 + r % 64]
  else if (0xD800 ≤ r ∧ r ≤ 0xDFFF) ∨ 0x10FFFF < r then [0xEF, 0xBF, 0xBD]
  else if r < 0x10000 then [0xE0 + r / 4096, 0x80 + r / 64 % 64, 0x80 + r % 64]
  else [0xF0 + r / 262144, 0x80 + r / 4096 % 64, 0x80 + r / 64 % 64, 0x80 + r % 64]

/-- The bytes of a string literal (its UTF-8 encoding). -/
def bytesOf (s : String) : Bytes :=
  s.data.foldr (fun c acc => utf8EncodeRune c.toNat ++ acc) []

/-! ## float64 -/

/-- A `float64`. `finite neg m e` is the number `(-1)^neg * m * 2^e`; the
values the operations produce are canonical: `m < 2^53`, `-1074 ≤ e ≤ 971`,
and `2^52 ≤ m` unless `e = -1074` (zero and the subnormals). All NaNs are one
value. -/
inductive F64
  | nan
  | inf (neg : Bool)
  | finite (neg : Bool) (m : Nat) (e : Int)
  deriving DecidableEq, Repr

namespace F64

/-- The constant `0` of type `float64`: positive zero. -/
def zero : F64 := finite false 0 (-1074)

/-- Number of binary digits of `n`, for `n < 2^fuel`. -/
def bitLen : Nat → Nat → Nat
  | 0, _ => 0
  | fuel + 1, n => if n = 0 then 0 else bitLen fuel (n / 2) + 1

/-- Quotient and remainder of `(n / d) / 2^e`, as `(q, r, D)` with
`n * 2^(-e) = q * D + r` (for `e < 0`) or `n = q * D + r`, `D = d * 2^e`. -/
def scaledDiv (n d : Nat) (e : Int) : Nat × Nat × Nat :=
  let N := if e < 0 then n <<< (-e).toNat else n
  let D := if e < 0 then d else d <<< e.toNat
  (N / D, N % D, D)

/-- The float64 nearest to `(-1)^neg * n / d` (`d > 0`), ties to even;
infinite when the rounded magnitude is `2^1024` or more. -/
def round (neg : Bool) (n d : Nat) : F64 :=
  if n = 0 then finite neg 0 (-1074)
  else
    let k : Int := (bitLen n.succ n : Int) - (bitLen d.succ d : Int)
    -- 2^(k-1) < n/d < 2^(k+1)
    let e1 : Int := k - 53
    let e2 : Int := if (scaledDiv n d e1).1 < 2 ^ 53 then e1 else e1 + 1
    let e : Int := if e2 < -1074 then -1074 else e2
    let (q, r, D) := scaledDiv n d e
    let m := if D < 2 * r ∨ (2 * r = D ∧ q % 2 = 1) then q + 1 else q
    let (m, e) := if m = 2 ^ 53 then (2 ^ 52, e + 1) else (m, e)
    if 971 < e then inf neg else finite neg m e

/-- The `*` of `float64`: IEEE 754 multiplication, round to nearest even. -/
def mul : F64 → F64 → F64
  | nan, _ => nan
  | _, nan => nan
  | inf s, inf t => inf (xor s t)
  | inf s, finite t m _ => if m = 0 then nan else inf (xor s t)
  | finite s m _, inf t => if m = 0 then nan else inf (xor s t)
  | finite s m e, finite t m2 e2 =>
    let x := e + e2
    if x < 0 then round (xor s t) (m * m2) (1 <<< (-x).toNat)
    else round (xor s t) ((m * m2) <<< x.toNat) 1

/-- A float64 made from an integer and a power of ten, correctly rounded:
`ofDecimal neg digits p` is `(-1)^neg * digits * 10^p`. -/
def ofDecimal (neg : Bool) (digits : Nat) (p : Int) : F64 :=
  if p < 0 then round neg digits (10 ^ (-p).toNat) else round neg (digits * 10 ^ p.toNat) 1

end F64

/-! ## The standard library and the network, as seen by `main.go` -/

/-- Errors of `strconv.ParseFloat`. -/
inductive NumError
  | syntaxError
  | rangeError
  deriving DecidableEq, Repr

/-- Errors of `json.Unmarshal`. -/
inductive JsonError
  | SyntaxError
  | UnmarshalTypeError
  deriving DecidableEq, Repr

/-- A Go `map[string]float64`: an association list with distinct keys (the
nil map and the empty map are both `[]`; the program only reads the map). -/
abbrev RateMap := List (Bytes × F64)

/-- The struct `ExchangeRates` (main.go lines 16-28). -/
structure ExchangeRates where
  Result : Bytes
  Provider : Bytes
  Documentation : Bytes
  TermsOfUse : Bytes
  TimeLastUpdateUnix : Int
  TimeLastUpdateUtc : Bytes
  TimeNextUpdateUnix : Int
  TimeNextUpdateUtc : Bytes
  TimeEolUnix : Int
  BaseCode : Bytes
  Rates : RateMap
  deriving DecidableEq, Repr

/-- The zero value of `ExchangeRates` (`var exchangeRates ExchangeRates`). -/
def ExchangeRates.zero : ExchangeRates :=
  ⟨[], [], [], [], 0, [], 0, [], 0, [], []⟩

/-- The index expression `m[key]` of a Go map: the zero value when the key is
absent. -/
def RateMap.index (m : RateMap) (key : Bytes) : F64 :=
  match m.lookup key with
  | some v => v
  | none => F64.zero

/-- The standard-library functions `main.go` calls. -/
structure Stdlib where
  /-- `strconv.ParseFloat(s, 64)`. -/
  parseFloat : Bytes → F64 × Option NumError
  /-- `strings.Map(unicode.ToUpper, s)`, the branch `strings.ToUpper` takes for
  a string that is not all ASCII. -/
  mapUnicodeToUpper : Bytes → Bytes
  /-- `json.Unmarshal(body, &v)` for `v` a zero `ExchangeRates`: the value of
  `v` afterwards, and the error. -/
  unmarshal : Bytes → ExchangeRates × Option JsonError

/-- An HTTP response: `io.ReadAll(res.Body)` gives the body or fails. -/
structure Response where
  readAll : Option Bytes
  deriving DecidableEq, Repr

/-- The network: `http.Get(url)` gives a response or fails. -/
abbrev Net := Bytes → Option Response

/-- The requests made so far, oldest first: the URL of each `http.Get`. -/
abbrev World := List Bytes

/-! ## `main.go` -/

/-- `validateAmount` (main.go lines 59-66). -/
def validateAmount (lib : Stdlib) (amountInput : Bytes) : F64 × Option Error :=
  match lib.parseFloat amountInput with
  | (_, some _) => (F64.zero, some InvalidAmount)
  | (amount, none) => (amount, none)

/-- The character class `[a-zA-Z]`. -/
def classLetter (b : Nat) : Bool :=
  (97 ≤ b && b ≤ 122) || (65 ≤ b && b ≤ 90)

/-- The repetition `[a-zA-Z]{n}` at the head of the input: the rest of the
input after `n` bytes of the class, if they are there. -/
def matchLetters : Nat → Bytes → Option Bytes
  | 0, s => some s
  | _ + 1, [] => none
  | n + 1, b :: s => if classLetter b then matchLetters n s else none

/-- `re.Match` for `re = regexp.MustCompile("^[a-zA-Z]{3}$")`: `^` anchors at
the start of the text, `$` (no `m` flag) at the very end of it. -/
def reMatch (s : Bytes) : Bool :=
  match matchLetters 3 s with
  | some [] => true
  | _ => false

/-- The ASCII case mapping of `strings.ToUpper`: `c -= 'a' - 'A'` for
`'a' <= c <= 'z'`. -/
def upperByte (c : Nat) : Nat :=
  if 97 ≤ c ∧ c ≤ 122 then c - 32 else c

/-- `strings.ToUpper`: an all-ASCII string is mapped bytewise (and returned as
it is when it has no lower-case letter), any other goes through
`unicode.ToUpper`. -/
def toUpper (lib : Stdlib) (s : Bytes) : Bytes :=
  if s.all (fun c => decide (c < 128)) then
    if s.any (fun c => decide (97 ≤ c ∧ c ≤ 122)) then s.map upperByte else s
  else lib.mapUnicodeToUpper s

/-- `validateCurrencyCodes` (main.go lines 68-75). -/
def validateCurrencyCodes (lib : Stdlib) (sourceCurrency targetCurrency : Bytes) :
    Bytes × Bytes × Option Error :=
  if !reMatch sourceCurrency || !reMatch targetCurrency then
    ([], [], some InvalidCurrencyCode)
  else
    (toUpper lib sourceCurrency, toUpper lib targetCurrency, none)

/-- The URL prefix of the rates API. -/
def apiBase : Bytes := bytesOf "https://open.er-api.com/v6/latest/"

/-- `convertCurrency` (main.go lines 77-102); `fromCode` and `toCode` are the
parameters `from` and `to`. The request is logged in the world before
anything else happens. -/
def convertCurrency (lib : Stdlib) (net : Net) (amount : F64) (fromCode toCode : Bytes) (w : World) :
    (F64 × Option Error) × World :=
  let url := apiBase ++ fromCode
  let w1 := w ++ [url]
  match net url with
  | none => ((F64.zero, some NetworkError), w1)
  | some res =>
    match res.readAll with
    | none => ((F64.zero, some ReadError), w1)
    | some body =>
      match lib.unmarshal body with
      | (_, some _) => ((F64.zero, some ParseError), w1)
      | (exchangeRates, none) =>
        if exchangeRates.Result ≠ bytesOf "success" then
          ((F64.zero, some UpstreamError), w1)
        else
          ((F64.mul amount (exchangeRates.Rates.index toCode), none), w1)

/-- How a run of the command ends. -/
inductive Exit
  /-- The argument check `cobra.ExactArgs(3)` refused the command line. -/
  | usage
  /-- The call `log.Fatal(err)`: the message is logged, the exit status is 1. -/
  | fatal (err : Error)
  /-- The call `log.Printf("%f %v is %f %v", amount, source, result, target)`. -/
  | printed (amount : F64) (sourceCurrency : Bytes) (result : F64) (targetCurrency : Bytes)
  deriving DecidableEq, Repr

/-- The `Run` function of the root command (main.go lines 36-53), on the three
positional arguments. -/
def Run (lib : Stdlib) (net : Net) (a s t : Bytes) (w : World) : Exit × World :=
  match validateAmount lib a with
  | (_, some err) => (Exit.fatal err, w)
  | (amount, none) =>
    match validateCurrencyCodes lib s t with
    | (_, _, some err) => (Exit.fatal err, w)
    | (sourceCurrency, targetCurrency, none) =>
      match convertCurrency lib net amount sourceCurrency targetCurrency w with
      | ((_, some err), w1) => (Exit.fatal err, w1)
      | ((result, none), w1) => (Exit.printed amount sourceCurrency result targetCurrency, w1)

/-- The command (main.go lines 30-57): `Run` is called when there are exactly
three positional arguments. -/
def main (lib : Stdlib) (net : Net) (args : List Bytes) (w : World) : Exit × World :=
  match args with
  | [a, s, t] => Run lib net a s t w
  | _ => (Exit.usage, w)


/-! ## A model of the Go standard library -/

/-- `utf8.DecodeRune`: the first rune of the input and its width in bytes;
`(U+FFFD, 1)` for a byte that starts no valid encoding, `(U+FFFD, 0)` for the
empty input. -/
def utf8DecodeRune : Bytes → Nat × Nat
  | [] => (0xFFFD, 0)
  | p0 :: rest =>
    if p0 < 0x80 then (p0, 1)
    else if p0 < 0xC2 ∨ 0xF4 < p0 then (0xFFFD, 1)
    else
      let sz := if p0 < 0xE0 then 2 else if p0 < 0xF0 then 3 else 4
      let lo := if p0 = 0xE0 then 0xA0 else if p0 = 0xF0 then 0x90 else 0x80
      let hi := if p0 = 0xED then 0x9F else if p0 = 0xF4 then 0x8F else 0xBF
      if rest.length + 1 < sz then (0xFFFD, 1)
      else
        match rest with
        | [] => (0xFFFD, 1)
        | b1 :: rest1 =>
          if b1 < lo ∨ hi < b1 then (0xFFFD, 1)
          else if sz ≤ 2 then (p0 % 32 * 64 + b1 % 64, 2)
          else
            match rest1 with
            | [] => (0xFFFD, 1)
            | b2 :: rest2 =>
              if b2 < 0x80 ∨ 0xBF < b2 then (0xFFFD, 1)
              else if sz ≤ 3 then (p0 % 16 * 4096 + b1 % 64 * 64 + b2 % 64, 3)
              else
                match rest2 with
                | [] => (0xFFFD, 1)
                | b3 :: _ =>
                  if b3 < 0x80 ∨ 0xBF < b3 then (0xFFFD, 1)
                  else (p0 % 8 * 262144 + b1 % 64 * 4096 + b2 % 64 * 64 + b3 % 64, 4)

/-- The helper `lower` of package strconv: `c | ('x' - 'X')`. -/
def lowerByte (c : Nat) : Nat := c ||| 0x20

/-- A decimal digit. -/
def isDigit (c : Nat) : Bool := 48 ≤ c && c ≤ 57

/-- A hexadecimal digit `a`-`f` or `A`-`F`. -/
def isHexLetter (c : Nat) : Bool := 97 ≤ lowerByte c && lowerByte c ≤ 102

/-- `commonPrefixLenIgnoreCase` of package strconv; `pre` is lower case. -/
def commonPrefixLenIgnoreCase : Bytes → Bytes → Nat
  | c :: s, p :: pre =>
    if (if 65 ≤ c ∧ c ≤ 90 then c + 32 else c) = p then commonPrefixLenIgnoreCase s pre + 1 else 0
  | _, _ => 0

/-- `special` of package strconv: the value and the number of bytes read
when the input starts with an infinity or a NaN. -/
def special (s : Bytes) : Option (F64 × Nat) :=
  let inf (neg : Bool) (nsign : Nat) (t : Bytes) : Option (F64 × Nat) :=
    let n := commonPrefixLenIgnoreCase t (bytesOf "infinity")
    let n := if 3 < n ∧ n < 8 then 3 else n
    if n = 3 ∨ n = 8 then some (F64.inf neg, nsign + n) else none
  match s with
  | [] => none
  | c :: t =>
    if c = 43 then inf false 1 t
    else if c = 45 then inf true 1 t
    else if c = 105 ∨ c = 73 then inf false 0 s
    else if c = 110 ∨ c = 78 then
      if commonPrefixLenIgnoreCase s (bytesOf "nan") = 3 then some (F64.nan, 3) else none
    else none

/-- `underscoreOK` of package strconv, after the optional sign and base
prefix: `saw` is the kind of the last character (`0` a digit or the base
prefix, `1` an underscore, `2` anything else, `3` the start). -/
def underscoreScan (hex : Bool) : Bytes → Nat → Bool
  | [], saw => saw != 1
  | c :: s, saw =>
    if isDigit c || (hex && isHexLetter c) then underscoreScan hex s 0
    else if c = 95 then (if saw != 0 then false else underscoreScan hex s 1)
    else if saw = 1 then false
    else underscoreScan hex s 2

/-- `underscoreOK` of package strconv: underscores only between digits, or
between a base prefix and a digit. -/
def underscoreOK (s : Bytes) : Bool :=
  let s := match s with
    | c :: t => if c = 45 ∨ c = 43 then t else s
    | [] => s
  match s with
  | 48 :: c :: t =>
    if lowerByte c = 98 ∨ lowerByte c = 111 ∨ lowerByte c = 120 then
      underscoreScan (lowerByte c = 120) t 0
    else underscoreScan false s 3
  | _ => underscoreScan false s 3

/-- What the mantissa loop of `readFloat` has seen: the digits read as one
integer `mant` (all of them: Go keeps 19 and a flag saying that more
followed, and rounds correctly from these), their number `nd` without the
leading zeros, and the position `dp` of the point. -/
structure Mantissa where
  mant : Nat
  nd : Nat
  dp : Int
  sawdot : Bool
  sawdigits : Bool
  underscores : Bool
  deriving Repr

/-- The mantissa loop of `readFloat`; returns the input left over. -/
def readMantissa (hex : Bool) : Bytes → Mantissa → Mantissa × Bytes
  | [], st => (st, [])
  | c :: s, st =>
    if c = 95 then readMantissa hex s { st with underscores := true }
    else if c = 46 then
      if st.sawdot then (st, c :: s)
      else readMantissa hex s { st with sawdot := true, dp := st.nd }
    else if isDigit c then
      if c = 48 ∧ st.nd = 0 then
        readMantissa hex s { st with sawdigits := true, dp := st.dp - 1 }
      else
        readMantissa hex s { st with sawdigits := true, nd := st.nd + 1,
                                     mant := st.mant * (if hex then 16 else 10) + (c - 48) }
    else if hex ∧ isHexLetter c then
      readMantissa hex s { st with sawdigits := true, nd := st.nd + 1,
                                   mant := st.mant * 16 + (lowerByte c - 97 + 10) }
    else (st, c :: s)

/-- The exponent loop of `readFloat`: digits and underscores; the value stops
growing once it has reached 10000. Returns the value, whether an underscore
was seen, and the input left over. -/
def readExponent : Bytes → Nat → Bool → Nat × Bool × Bytes
  | [], e, u => (e, u, [])
  | c :: s, e, u =>
    if c = 95 then readExponent s e true
    else if isDigit c then readExponent s (if e < 10000 then e * 10 + (c - 48) else e) u
    else (e, u, c :: s)

/-- The number `(-1)^neg * mant * 2^x`, correctly rounded. -/
def F64.ofBinary (neg : Bool) (mant : Nat) (x : Int) : F64 :=
  if x < 0 then F64.round neg mant (1 <<< (-x).toNat) else F64.round neg (mant <<< x.toNat) 1

/-- `strconv.ParseFloat(s, 64)`: an infinity or NaN, or a decimal or
hexadecimal floating-point literal with an optional sign, rounded to the
nearest float64. The whole input must be consumed. A magnitude that rounds
to infinity is a range error. -/
def parseFloat (s : Bytes) : F64 × Option NumError :=
  match special s with
  | some (v, n) => if n = s.length then (v, none) else (F64.zero, some NumError.syntaxError)
  | none =>
    match s with
    | [] => (F64.zero, some NumError.syntaxError)
    | c :: t =>
      let neg := c = 45
      let s1 := if c = 43 ∨ c = 45 then t else s
      let hex := match s1 with
        | 48 :: x :: _ :: _ => lowerByte x = 120
        | _ => false
      let s2 := if hex then s1.drop 2 else s1
      let (st, s3) := readMantissa hex s2 ⟨0, 0, 0, false, false, false⟩
      if !st.sawdigits then (F64.zero, some NumError.syntaxError)
      else
        let dp : Int := if st.sawdot then st.dp else st.nd
        let dp : Int := if hex then dp * 4 else dp
        let nd : Int := if hex then st.nd * 4 else st.nd
        let expChar := if hex then 112 else 101
        -- the exponent: `none` for a syntax error
        let ex : Option (Int × Bool × Bytes) :=
          match s3 with
          | [] => if hex then none else some (0, false, [])
          | c3 :: s4 =>
            if lowerByte c3 = expChar then
              match s4 with
              | [] => none
              | c4 :: s5 =>
                let s6 := if c4 = 43 ∨ c4 = 45 then s5 else s4
                match s6 with
                | [] => none
                | c6 :: _ =>
                  if !isDigit c6 then none
                  else
                    let (e, u, rest) := readExponent s6 0 false
                    some (if c4 = 45 then -(e : Int) else (e : Int), u, rest)
            else if hex then none
            else some (0, false, s3)
        match ex with
        | none => (F64.zero, some NumError.syntaxError)
        | some (e, u, rest) =>
          if (st.underscores || u) && !underscoreOK s then (F64.zero, some NumError.syntaxError)
          else if rest ≠ [] then (F64.zero, some NumError.syntaxError)
          else
            let f := if hex then F64.ofBinary neg st.mant (dp + e - nd)
                     else F64.ofDecimal neg st.mant (dp + e - nd)
            match f with
            | F64.inf _ => (f, some NumError.rangeError)
            | _ => (f, none)

/-- `strconv.ParseInt(s, 10, 64)`: an optional sign and decimal digits, in
the range of `int64`. -/
def parseInt (s : Bytes) : Option Int :=
  let neg := s.head? = some 45
  let digits := if s.head? = some 45 ∨ s.head? = some 43 then s.tail else s
  if digits = [] ∨ !digits.all isDigit then none
  else
    let n : Nat := digits.foldl (fun acc c => acc * 10 + (c - 48)) 0
    if neg then (if n ≤ 2 ^ 63 then some (-(n : Int)) else none)
    else if n < 2 ^ 63 then some (n : Int) else none

/-- A JSON value as `json.Unmarshal` sees it: a number keeps its literal, a
string is unquoted, an object keeps its members in input order. -/
inductive JSON
  | null
  | bool (b : Bool)
  | num (literal : Bytes)
  | str (s : Bytes)
  | arr (elems : List JSON)
  | obj (members : List (Bytes × JSON))
  deriving Repr

/-- JSON white space: space, tab, carriage return, line feed. -/
def isSpace (c : Nat) : Bool := c = 32 || c = 9 || c = 13 || c = 10

/-- The input without its leading white space. -/
def skipSpace : Bytes → Bytes
  | [] => []
  | c :: s => if isSpace c then skipSpace s else c :: s

/-- The value of a hexadecimal digit. -/
def hexValue (c : Nat) : Option Nat :=
  if isDigit c then some (c - 48)
  else if isHexLetter c then some (lowerByte c - 97 + 10)
  else none

/-- `getu4` of package json: the rune of an escape `\uXXXX` at the head of
the input. -/
def getu4 : Bytes → Option Nat
  | 92 :: 117 :: a :: b :: c :: d :: _ =>
    match hexValue a, hexValue b, hexValue c, hexValue d with
    | some a, some b, some c, some d => some (a * 4096 + b * 256 + c * 16 + d)
    | _, _, _, _ => none
  | _ => none

/-- A JSON string after its opening quote: the unquoted bytes and the input
after the closing quote. The scanner refuses control characters and unknown
escapes; unquoting (`unquoteBytes`) replaces escapes, joins surrogate pairs
and writes U+FFFD for a lone surrogate and for every byte that is not valid
UTF-8. -/
def parseString : Nat → Bytes → Option (Bytes × Bytes)
  | 0, _ => none
  | _ + 1, [] => none
  | fuel + 1, c :: s =>
    let more (out : Bytes) (rest : Bytes) : Option (Bytes × Bytes) :=
      (parseString fuel rest).map (fun p => (out ++ p.1, p.2))
    if c = 34 then some ([], s)
    else if c < 32 then none
    else if c = 92 then
      match s with
      | [] => none
      | e :: t =>
        if e = 34 ∨ e = 92 ∨ e = 47 then more [e] t
        else if e = 98 then more [8] t
        else if e = 102 then more [12] t
        else if e = 110 then more [10] t
        else if e = 114 then more [13] t
        else if e = 116 then more [9] t
        else if e = 117 then
          match getu4 (c :: s) with
          | none => none
          | some rr =>
            let t4 := t.drop 4
            if 0xD800 ≤ rr ∧ rr < 0xE000 then
              match getu4 t4 with
              | some rr1 =>
                if rr < 0xDC00 ∧ 0xDC00 ≤ rr1 ∧ rr1 < 0xE000 then
                  more (utf8EncodeRune ((rr - 0xD800) * 1024 + (rr1 - 0xDC00) + 0x10000))
                    (t4.drop 6)
                else more (utf8EncodeRune 0xFFFD) t4
              | none => more (utf8EncodeRune 0xFFFD) t4
            else more (utf8EncodeRune rr) t4
        else none
    else if c < 128 then more [c] s
    else
      let (rr, size) := utf8DecodeRune (c :: s)
      more (utf8EncodeRune rr) (s.drop (size - 1))

/-- One or more decimal digits at the head of the input. -/
def readDigits : Bytes → Bytes × Bytes
  | [] => ([], [])
  | c :: s => if isDigit c then ((readDigits s).1.cons c, (readDigits s).2) else ([], c :: s)

/-- A JSON number at the head of the input: its literal and the input after
it. Grammar: `-? (0 | [1-9][0-9]*) (. [0-9]+)? ([eE] [+-]? [0-9]+)?`. -/
def parseNumber (s : Bytes) : Option (Bytes × Bytes) :=
  let (sign, s1) := match s with
    | 45 :: t => ([45], t)
    | _ => ([], s)
  let intPart : Option (Bytes × Bytes) := match s1 with
    | 48 :: t => some ([48], t)
    | c :: _ => if isDigit c then some (readDigits s1) else none
    | [] => none
  match intPart with
  | none => none
  | some (ip, s2) =>
    let frac : Option (Bytes × Bytes) := match s2 with
      | 46 :: t =>
        let (ds, r) := readDigits t
        if ds = [] then none else some (46 :: ds, r)
      | _ => some ([], s2)
    match frac with
    | none => none
    | some (fp, s3) =>
      let ex : Option (Bytes × Bytes) := match s3 with
        | c :: t =>
          if c = 101 ∨ c = 69 then
            let (sg, t1) := match t with
              | x :: u => if x = 43 ∨ x = 45 then ([x], u) else ([], t)
              | [] => ([], t)
            let (ds, r) := readDigits t1
            if ds = [] then none else some (c :: sg ++ ds, r)
          else some ([], s3)
        | [] => some ([], s3)
      match ex with
      | none => none
      | some (ep, s4) => some (sign ++ ip ++ fp ++ ep, s4)

/-- The input after the literal `lit`, if the input starts with it. -/
def stripLiteral : Bytes → Bytes → Option Bytes
  | [], s => some s
  | _ :: _, [] => none
  | l :: lit, c :: s => if l = c then stripLiteral lit s else none

/-- A JSON string, number, `true`, `false` or `null` at the head of the
input. -/
def parseScalar (s : Bytes) : Option (JSON × Bytes) :=
  match s with
  | [] => none
  | c :: t =>
    if c = 34 then (parseString s.length t).map (fun p => (JSON.str p.1, p.2))
    else if c = 116 then (stripLiteral (bytesOf "true") s).map (fun r => (JSON.bool true, r))
    else if c = 102 then (stripLiteral (bytesOf "false") s).map (fun r => (JSON.bool false, r))
    else if c = 110 then (stripLiteral (bytesOf "null") s).map (fun r => (JSON.null, r))
    else if c = 45 ∨ isDigit c then (parseNumber s).map (fun p => (JSON.num p.1, p.2))
    else none

/-- The elements of an array after the first position: `value (, value)* ]`,
with `pv` reading one value. -/
def parseElems (pv : Bytes → Option (JSON × Bytes)) : Nat → Bytes → Option (List JSON × Bytes)
  | 0, _ => none
  | fuel + 1, s =>
    match pv s with
    | none => none
    | some (v, r) =>
      match skipSpace r with
      | 44 :: r1 => (parseElems pv fuel (skipSpace r1)).map (fun p => (v :: p.1, p.2))
      | 93 :: r1 => some ([v], r1)
      | _ => none

/-- The members of an object: `string : value (, string : value)* }`, with
`pv` reading one value. -/
def parseMembers (pv : Bytes → Option (JSON × Bytes)) :
    Nat → Bytes → Option (List (Bytes × JSON) × Bytes)
  | 0, _ => none
  | fuel + 1, s =>
    match s with
    | 34 :: r =>
      match parseString s.length r with
      | none => none
      | some (key, r1) =>
        match skipSpace r1 with
        | 58 :: r2 =>
          match pv (skipSpace r2) with
          | none => none
          | some (v, r3) =>
            match skipSpace r3 with
            | 44 :: r4 => (parseMembers pv fuel (skipSpace r4)).map (fun p => ((key, v) :: p.1, p.2))
            | 125 :: r4 => some ([(key, v)], r4)
            | _ => none
        | _ => none
    | _ => none

/-- A JSON value at the head of the input (no leading white space), with at
most `depth` arrays and objects nested: the scanner of package json gives up
beyond 10000. -/
def parseValue : Nat → Bytes → Option (JSON × Bytes)
  | 0, s => parseScalar s
  | depth + 1, s =>
    match s with
    | 91 :: r =>
      match skipSpace r with
      | 93 :: r1 => some (JSON.arr [], r1)
      | r1 => (parseElems (parseValue depth) s.length r1).map (fun p => (JSON.arr p.1, p.2))
    | 123 :: r =>
      match skipSpace r with
      | 125 :: r1 => some (JSON.obj [], r1)
      | r1 => (parseMembers (parseValue depth) s.length r1).map (fun p => (JSON.obj p.1, p.2))
    | _ => parseScalar s

/-- `checkValid` of package json: the whole input is one JSON value between
optional white space. -/
def parseJSON (data : Bytes) : Option JSON :=
  match parseValue 10000 (skipSpace data) with
  | none => none
  | some (v, rest) => if skipSpace rest = [] then some v else none

/-- Case folding of an object key, as far as it decides equality with an
ASCII field name (`foldName` of package json): ASCII letters to upper case,
U+017F (long s) to `S`, U+212A (Kelvin sign) to `K`. -/
def foldName : Bytes → Bytes
  | [] => []
  | 0xC5 :: 0xBF :: s => 83 :: foldName s
  | 0xE2 :: 0x84 :: 0xAA :: s => 75 :: foldName s
  | c :: s => upperByte c :: foldName s

/-- Storing a JSON value in a field of type `string`: the new value, and
whether this is a type error. `null` leaves the field as it is. -/
def storeString (cur : Bytes) : JSON → Bytes × Bool
  | JSON.str s => (s, false)
  | JSON.null => (cur, false)
  | _ => (cur, true)

/-- Storing a JSON value in a field of type `int` (64 bits wide): a number
must be an integer literal in range. -/
def storeInt (cur : Int) : JSON → Int × Bool
  | JSON.num literal =>
    match parseInt literal with
    | some n => (n, false)
    | none => (cur, true)
  | JSON.null => (cur, false)
  | _ => (cur, true)

/-- Storing a JSON value in a `float64`. -/
def storeFloat (cur : F64) : JSON → F64 × Bool
  | JSON.num literal =>
    match parseFloat literal with
    | (f, none) => (f, false)
    | (_, some _) => (cur, true)
  | JSON.null => (cur, false)
  | _ => (cur, true)

/-- The map with `key` set to `v`. -/
def RateMap.set (m : RateMap) (key : Bytes) (v : F64) : RateMap :=
  (key, v) :: m.filter (fun p => p.1 ≠ key)

/-- Storing a JSON value in a field of type `map[string]float64`: every
member of an object is stored under its key, starting from the zero float
(so a member that is `null` or of the wrong type is stored as 0); `null`
empties the map. -/
def storeRates (cur : RateMap) : JSON → RateMap × Bool
  | JSON.obj members =>
    members.foldl (fun acc kv =>
      let r := storeFloat F64.zero kv.2
      (acc.1.set kv.1 r.1, acc.2 || r.2)) (cur, false)
  | JSON.null => ([], false)
  | _ => (cur, true)

/-- One member of the top-level object stored in the struct: the field whose
`json` tag equals the key up to case gets the value, a key that matches no
field is skipped. The flag says whether a type error has occurred so far. -/
def storeField (acc : ExchangeRates × Bool) (kv : Bytes × JSON) : ExchangeRates × Bool :=
  let v := acc.1
  let k := foldName kv.1
  let tag (name : String) : Bool := k = foldName (bytesOf name)
  if tag "result" then
    ({ v with Result := (storeString v.Result kv.2).1 }, acc.2 || (storeString v.Result kv.2).2)
  else if tag "provider" then
    ({ v with Provider := (storeString v.Provider kv.2).1 },
      acc.2 || (storeString v.Provider kv.2).2)
  else if tag "documentation" then
    ({ v with Documentation := (storeString v.Documentation kv.2).1 },
      acc.2 || (storeString v.Documentation kv.2).2)
  else if tag "terms_of_use" then
    ({ v with TermsOfUse := (storeString v.TermsOfUse kv.2).1 },
      acc.2 || (storeString v.TermsOfUse kv.2).2)
  else if tag "time_last_update_unix" then
    ({ v with TimeLastUpdateUnix := (storeInt v.TimeLastUpdateUnix kv.2).1 },
      acc.2 || (storeInt v.TimeLastUpdateUnix kv.2).2)
  else if tag "time_last_update_utc" then
    ({ v with TimeLastUpdateUtc := (storeString v.TimeLastUpdateUtc kv.2).1 },
      acc.2 || (storeString v.TimeLastUpdateUtc kv.2).2)
  else if tag "time_next_update_unix" then
    ({ v with TimeNextUpdateUnix := (storeInt v.TimeNextUpdateUnix kv.2).1 },
      acc.2 || (storeInt v.TimeNextUpdateUnix kv.2).2)
  else if tag "time_next_update_utc" then
    ({ v with TimeNextUpdateUtc := (storeString v.TimeNextUpdateUtc kv.2).1 },
      acc.2 || (storeString v.TimeNextUpdateUtc kv.2).2)
  else if tag "time_eol_unix" then
    ({ v with TimeEolUnix := (storeInt v.TimeEolUnix kv.2).1 },
      acc.2 || (storeInt v.TimeEolUnix kv.2).2)
  else if tag "base_code" then
    ({ v with BaseCode := (storeString v.BaseCode kv.2).1 },
      acc.2 || (storeString v.BaseCode kv.2).2)
  else if tag "rates" then
    ({ v with Rates := (storeRates v.Rates kv.2).1 }, acc.2 || (storeRates v.Rates kv.2).2)
  else acc

/-- Decoding a JSON value into a zero `ExchangeRates`: an object is stored
member by member, `null` changes nothing, anything else is a type error.
Decoding goes on after a type error; the first one is reported. -/
def decode : JSON → ExchangeRates × Option JsonError
  | JSON.obj members =>
    let r := members.foldl storeField (ExchangeRates.zero, false)
    (r.1, if r.2 then some JsonError.UnmarshalTypeError else none)
  | JSON.null => (ExchangeRates.zero, none)
  | _ => (ExchangeRates.zero, some JsonError.UnmarshalTypeError)

/-- `json.Unmarshal(data, &v)` for `v` a zero `ExchangeRates`: a syntax error
when the input is not one JSON value (nothing is stored), else the decoded
struct. -/
def unmarshal (data : Bytes) : ExchangeRates × Option JsonError :=
  match parseJSON data with
  | none => (ExchangeRates.zero, some JsonError.SyntaxError)
  | some v => decode v

/-- The model of the Go standard library. The case tables of package
`unicode` are not modelled, the field is the identity: `strings.ToUpper` is
only ever called on ASCII letters (`toUpper_of_letters`). -/
def goStdlib : Stdlib where
  parseFloat := parseFloat
  mapUnicodeToUpper := fun s => s
  unmarshal := unmarshal

/-- A network that answers every request with the given body. -/
def serving (body : Bytes) : Net := fun _ => some ⟨some body⟩

/-! ## Specification vocabulary -/

/-- An alphabetic character of a currency code: an ASCII letter. -/
def IsLetter (b : Nat) : Prop := (97 ≤ b ∧ b ≤ 122) ∨ (65 ≤ b ∧ b ≤ 90)

instance (b : Nat) : Decidable (IsLetter b) := by unfold IsLetter; infer_instance

/-- A string of exactly three alphabetic characters. -/
def ThreeLetters (s : Bytes) : Prop := s.length = 3 ∧ ∀ b ∈ s, IsLetter b

instance (s : Bytes) : Decidable (ThreeLetters s) := by unfold ThreeLetters; infer_instance

/-- The upper-cased string: every lower-case letter replaced by its capital. -/
def uppercase (s : Bytes) : Bytes := s.map upperByte


/-- The member of a JSON object with exactly this key (the last one, if the
key is repeated); `none` for a value that is no object or has no such key. -/
def JSON.member (j : JSON) (key : Bytes) : Option JSON :=
  match j with
  | JSON.obj members => (members.reverse.lookup key)
  | _ => none

/-- Whether the float is a zero, of either sign. -/
def F64.isZero : F64 → Bool
  | F64.finite _ m _ => m = 0
  | _ => false

/-- The float64 written as the Go literal `s`. -/
def lit (s : String) : F64 := (parseFloat (bytesOf s)).1

/-- What `Run` does with the outcome of `convertCurrency`: `log.Fatal` on an
error, `log.Printf` of the conversion otherwise. -/
def finish (amount : F64) (sourceCurrency targetCurrency : Bytes)
    (r : (F64 × Option Error) × World) : Exit × World :=
  match r with
  | ((_, some err), w1) => (Exit.fatal err, w1)
  | ((result, none), w1) => (Exit.printed amount sourceCurrency result targetCurrency, w1)

/-! ## Theorems -/

set_option maxRecDepth 100000

theorem classLetter_iff (b : Nat) : classLetter b = true ↔ IsLetter b := by
  simp [classLetter, IsLetter]

theorem reMatch_iff (s : Bytes) : reMatch s = true ↔ ThreeLetters s := by
  match s with
  | [] => simp [reMatch, matchLetters, ThreeLetters]
  | [a] => simp [reMatch, matchLetters, ThreeLetters]
  | [a, b] => simp [reMatch, matchLetters, ThreeLetters]
  | [a, b, c] =>
    by_cases ha : classLetter a = true <;> by_cases hb : classLetter b = true <;>
      by_cases hc : classLetter c = true <;>
      simp [reMatch, matchLetters, ThreeLetters, ← classLetter_iff, ha, hb, hc]
  | a :: b :: c :: d :: r =>
    by_cases ha : classLetter a = true <;> by_cases hb : classLetter b = true <;>
      by_cases hc : classLetter c = true <;>
      simp [reMatch, matchLetters, ThreeLetters, ha, hb, hc]

theorem map_upperByte_of_no_lower (s : Bytes)
    (h : s.any (fun c => decide (97 ≤ c ∧ c ≤ 122)) = false) : s.map upperByte = s := by
  induction s with
  | nil => rfl
  | cons a s ih =>
    simp only [List.any_cons, Bool.or_eq_false_iff, decide_eq_false_iff_not] at h
    simp only [List.map_cons, ih h.2, upperByte, if_neg h.1]

theorem toUpper_of_letters (lib : Stdlib) (s : Bytes) (h : ∀ b ∈ s, IsLetter b) :
    toUpper lib s = uppercase s := by
  have hascii : s.all (fun c => decide (c < 128)) = true := by
    simp only [List.all_eq_true, decide_eq_true_eq]
    intro b hb
    rcases h b hb with h1 | h1 <;> omega
  unfold toUpper uppercase
  rw [if_pos hascii]
  split
  · rfl
  · rename_i hl
    exact (map_upperByte_of_no_lower s (by simpa using hl)).symm

theorem uppercase_capital (s : Bytes) (h : ∀ b ∈ s, IsLetter b) :
    ∀ b ∈ uppercase s, 65 ≤ b ∧ b ≤ 90 := by
  intro b hb
  simp only [uppercase, List.mem_map] at hb
  obtain ⟨a, ha, rfl⟩ := hb
  unfold upperByte
  rcases h a ha with h1 | h1 <;> split <;> omega

theorem validateCurrencyCodes_of_valid (lib : Stdlib) (s t : Bytes)
    (hs : ThreeLetters s) (ht : ThreeLetters t) :
    validateCurrencyCodes lib s t = (uppercase s, uppercase t, none) := by
  unfold validateCurrencyCodes
  rw [(reMatch_iff s).2 hs, (reMatch_iff t).2 ht]
  simp [toUpper_of_letters lib _ hs.2, toUpper_of_letters lib _ ht.2]

theorem validateCurrencyCodes_of_invalid (lib : Stdlib) (s t : Bytes)
    (h : ¬ (ThreeLetters s ∧ ThreeLetters t)) :
    validateCurrencyCodes lib s t = ([], [], some InvalidCurrencyCode) := by
  unfold validateCurrencyCodes
  rw [← reMatch_iff, ← reMatch_iff] at h
  cases hs : reMatch s <;> cases ht : reMatch t <;> simp_all

theorem validateAmount_of_ok (lib : Stdlib) (a : Bytes) (h : (lib.parseFloat a).2 = none) :
    validateAmount lib a = ((lib.parseFloat a).1, none) := by
  unfold validateAmount
  rcases hp : lib.parseFloat a with ⟨v, _ | e⟩ <;> simp_all

theorem validateAmount_of_err (lib : Stdlib) (a : Bytes) (h : (lib.parseFloat a).2 ≠ none) :
    validateAmount lib a = (F64.zero, some InvalidAmount) := by
  unfold validateAmount
  rcases hp : lib.parseFloat a with ⟨v, _ | e⟩ <;> simp_all

/-- C1: for every two strings of exactly three (ASCII) letters each, in any
mix of cases, `validateCurrencyCodes` returns no error and returns both codes
upper-cased. -/
theorem validateCurrencyCodes_accepts (lib : Stdlib) (source target : Bytes)
    (hs : ThreeLetters source) (ht : ThreeLetters target) :
    validateCurrencyCodes lib source target = (uppercase source, uppercase target, none) :=
  validateCurrencyCodes_of_valid lib source target hs ht

/-- C1, at the input of the claim: `("usd", "Eur")` gives `("USD", "EUR")`. -/
theorem validateCurrencyCodes_accepts_witness :
    validateCurrencyCodes goStdlib (bytesOf "usd") (bytesOf "Eur")
      = (bytesOf "USD", bytesOf "EUR", none) :=
  validateCurrencyCodes_accepts goStdlib (bytesOf "usd") (bytesOf "Eur") (by decide) (by decide)

/-- C2: `validateCurrencyCodes` fails exactly when one of the two codes is not
three letters (a length other than 3, or a byte that is no letter), whatever
the other code is; and when it fails the error is `InvalidCurrencyCode` and
both returned codes are empty. -/
theorem validateCurrencyCodes_rejects (lib : Stdlib) (source target : Bytes) :
    ((validateCurrencyCodes lib source target).2.2 ≠ none
      ↔ (source.length ≠ 3 ∨ ∃ b ∈ source, ¬ IsLetter b)
        ∨ (target.length ≠ 3 ∨ ∃ b ∈ target, ¬ IsLetter b))
    ∧ ((validateCurrencyCodes lib source target).2.2 ≠ none →
        validateCurrencyCodes lib source target = ([], [], some InvalidCurrencyCode)) := by
  have key : ∀ s : Bytes, reMatch s = false ↔ (s.length ≠ 3 ∨ ∃ b ∈ s, ¬ IsLetter b) := by
    intro s
    rw [← Bool.not_eq_true, reMatch_iff, ThreeLetters]
    constructor
    · intro h
      by_cases hl : s.length = 3
      · right
        by_contra hc
        exact h ⟨hl, fun b hb => by_contra fun hn => hc ⟨b, hb, hn⟩⟩
      · exact Or.inl hl
    · rintro (h | ⟨b, hb, hn⟩) ⟨hl, hall⟩
      · exact h hl
      · exact hn (hall b hb)
  unfold validateCurrencyCodes
  rw [← key source, ← key target]
  cases hs : reMatch source <;> cases ht : reMatch target <;> simp

/-- C2, at the inputs of the claim: `("US", "EUR")`, `("USD", "EU1")`,
`("USDX", "EUR")` and `("USD\n", "EUR")` all fail. -/
theorem validateCurrencyCodes_rejects_witness :
    validateCurrencyCodes goStdlib (bytesOf "US") (bytesOf "EUR")
        = ([], [], some InvalidCurrencyCode)
    ∧ validateCurrencyCodes goStdlib (bytesOf "USD") (bytesOf "EU1")
        = ([], [], some InvalidCurrencyCode)
    ∧ validateCurrencyCodes goStdlib (bytesOf "USDX") (bytesOf "EUR")
        = ([], [], some InvalidCurrencyCode)
    ∧ validateCurrencyCodes goStdlib (bytesOf "USD\n") (bytesOf "EUR")
        = ([], [], some InvalidCurrencyCode) :=
  ⟨(validateCurrencyCodes_rejects goStdlib (bytesOf "US") (bytesOf "EUR")).2 (by decide),
   (validateCurrencyCodes_rejects goStdlib (bytesOf "USD") (bytesOf "EU1")).2 (by decide),
   (validateCurrencyCodes_rejects goStdlib (bytesOf "USDX") (bytesOf "EUR")).2 (by decide),
   (validateCurrencyCodes_rejects goStdlib (bytesOf "USD\n") (bytesOf "EUR")).2 (by decide)⟩

/-- C3: `validateAmount(s)` succeeds exactly when `strconv.ParseFloat(s, 64)`
does; on success it returns the parsed float as it is, whatever its sign or
size; on failure it returns `InvalidAmount` and the amount 0. -/
theorem validateAmount_iff_parses (lib : Stdlib) (s : Bytes) :
    ((validateAmount lib s).2 = none ↔ (lib.parseFloat s).2 = none)
    ∧ ((lib.parseFloat s).2 = none → validateAmount lib s = ((lib.parseFloat s).1, none))
    ∧ ((lib.parseFloat s).2 ≠ none → validateAmount lib s = (F64.zero, some InvalidAmount)) := by
  unfold validateAmount
  rcases h : lib.parseFloat s with ⟨v, _ | e⟩ <;> simp

/-- C3, at the inputs of the claim: `"-5"` and `"0"` are accepted and returned
unchanged, `"abc"` and `""` are refused with `InvalidAmount` and amount 0. -/
theorem validateAmount_iff_parses_witness :
    validateAmount goStdlib (bytesOf "-5") = (F64.finite true 5629499534213120 (-50), none)
    ∧ validateAmount goStdlib (bytesOf "0") = (F64.zero, none)
    ∧ validateAmount goStdlib (bytesOf "abc") = (F64.zero, some InvalidAmount)
    ∧ validateAmount goStdlib (bytesOf "") = (F64.zero, some InvalidAmount) :=
  ⟨((validateAmount_iff_parses goStdlib (bytesOf "-5")).2.1 (by decide)).trans (by decide),
   ((validateAmount_iff_parses goStdlib (bytesOf "0")).2.1 (by decide)).trans (by decide),
   (validateAmount_iff_parses goStdlib (bytesOf "abc")).2.2 (by decide),
   (validateAmount_iff_parses goStdlib (bytesOf "")).2.2 (by decide)⟩

/-! ### Conversion -/

theorem index_of_lookup (m : RateMap) (key : Bytes) (r : F64) (h : m.lookup key = some r) :
    m.index key = r := by
  simp [RateMap.index, h]

theorem index_of_absent (m : RateMap) (key : Bytes) (h : m.lookup key = none) :
    m.index key = F64.zero := by
  simp [RateMap.index, h]

theorem mul_zero_of_finite (neg : Bool) (m : Nat) (e : Int) :
    F64.mul (F64.finite neg m e) F64.zero = F64.finite neg 0 (-1074) := by
  simp [F64.mul, F64.zero, F64.round]

/-- C4: when the response body is read, unmarshals without error, has
`Result == "success"` and its rates map holds the rate `r` under the target
code, `convertCurrency` returns the float64 product `amount * r` and no
error; nothing else is done to the product. -/
theorem convertCurrency_success (lib : Stdlib) (net : Net) (amount : F64) (src dst : Bytes)
    (w : World) (body : Bytes) (er : ExchangeRates) (r : F64)
    (hget : net (apiBase ++ src) = some ⟨some body⟩)
    (hjson : lib.unmarshal body = (er, none))
    (hres : er.Result = bytesOf "success")
    (hrate : er.Rates.lookup dst = some r) :
    (convertCurrency lib net amount src dst w).1 = (F64.mul amount r, none) := by
  simp [convertCurrency, hget, hjson, hres, index_of_lookup _ _ _ hrate]

/-- C4, at the input of the claim: with the response
`{"result":"success","rates":{"EUR":0.9}}`, converting 100 from USD to EUR
gives 90.0. -/
theorem convertCurrency_success_witness :
    (convertCurrency goStdlib
        (serving (bytesOf "\x7b\"result\":\"success\",\"rates\":\x7b\"EUR\":0.9\x7d\x7d"))
        (lit "100") (bytesOf "USD") (bytesOf "EUR") []).1
      = (lit "90.0", none) :=
  (convertCurrency_success goStdlib
      (serving (bytesOf "\x7b\"result\":\"success\",\"rates\":\x7b\"EUR\":0.9\x7d\x7d"))
      (lit "100") (bytesOf "USD") (bytesOf "EUR") []
      (bytesOf "\x7b\"result\":\"success\",\"rates\":\x7b\"EUR\":0.9\x7d\x7d")
      ⟨bytesOf "success", [], [], [], 0, [], 0, [], 0, [], [(bytesOf "EUR", lit "0.9")]⟩
      (lit "0.9") rfl (by decide) rfl (by decide)).trans (by decide)

/-- C5: when the response body is read and unmarshals without error but
`Result` is not exactly `"success"`, `convertCurrency` returns the value 0
and `UpstreamError`, for every amount, every pair of codes and every content
of the rates map. -/
theorem convertCurrency_upstream (lib : Stdlib) (net : Net) (amount : F64) (src dst : Bytes)
    (w : World) (body : Bytes) (er : ExchangeRates)
    (hget : net (apiBase ++ src) = some ⟨some body⟩)
    (hjson : lib.unmarshal body = (er, none))
    (hres : er.Result ≠ bytesOf "success") :
    (convertCurrency lib net amount src dst w).1 = (F64.zero, some UpstreamError) := by
  simp [convertCurrency, hget, hjson, hres]

/-- C5, at the input of the claim, the response `{"result":"fail"}`, at a
response without the field, `{}`, and at a response that holds the target
rate but says `"Success"`. -/
theorem convertCurrency_upstream_witness :
    (convertCurrency goStdlib (serving (bytesOf "\x7b\"result\":\"fail\"\x7d"))
        (lit "100") (bytesOf "USD") (bytesOf "EUR") []).1 = (F64.zero, some UpstreamError)
    ∧ (convertCurrency goStdlib (serving (bytesOf "\x7b\x7d"))
        (lit "100") (bytesOf "USD") (bytesOf "EUR") []).1 = (F64.zero, some UpstreamError)
    ∧ (convertCurrency goStdlib
        (serving (bytesOf "\x7b\"result\":\"Success\",\"rates\":\x7b\"EUR\":0.9\x7d\x7d"))
        (lit "100") (bytesOf "USD") (bytesOf "EUR") []).1 = (F64.zero, some UpstreamError) :=
  ⟨convertCurrency_upstream goStdlib (serving (bytesOf "\x7b\"result\":\"fail\"\x7d"))
      (lit "100") (bytesOf "USD") (bytesOf "EUR") [] (bytesOf "\x7b\"result\":\"fail\"\x7d")
      ⟨bytesOf "fail", [], [], [], 0, [], 0, [], 0, [], []⟩ rfl (by decide) (by decide),
   convertCurrency_upstream goStdlib (serving (bytesOf "\x7b\x7d"))
      (lit "100") (bytesOf "USD") (bytesOf "EUR") [] (bytesOf "\x7b\x7d")
      ExchangeRates.zero rfl (by decide) (by decide),
   convertCurrency_upstream goStdlib
      (serving (bytesOf "\x7b\"result\":\"Success\",\"rates\":\x7b\"EUR\":0.9\x7d\x7d"))
      (lit "100") (bytesOf "USD") (bytesOf "EUR") []
      (bytesOf "\x7b\"result\":\"Success\",\"rates\":\x7b\"EUR\":0.9\x7d\x7d")
      ⟨bytesOf "Success", [], [], [], 0, [], 0, [], 0, [], [(bytesOf "EUR", lit "0.9")]⟩
      rfl (by decide) (by decide)⟩

/-- C6 as stated fails: with the response
`{"result":"success","rates":{"EUR":0.9}}`, the target GBP (absent from the
rates) and the amount `+Inf` (the command line argument `inf`), no error is
reported and the value returned is NaN, which is no zero. -/
theorem absent_rate_gives_nan :
    validateAmount goStdlib (bytesOf "inf") = (F64.inf false, none)
    ∧ (goStdlib.unmarshal
        (bytesOf "\x7b\"result\":\"success\",\"rates\":\x7b\"EUR\":0.9\x7d\x7d")).1.Rates.lookup
          (bytesOf "GBP") = none
    ∧ (convertCurrency goStdlib
        (serving (bytesOf "\x7b\"result\":\"success\",\"rates\":\x7b\"EUR\":0.9\x7d\x7d"))
        (F64.inf false) (bytesOf "USD") (bytesOf "GBP") []).1 = (F64.nan, none)
    ∧ F64.isZero F64.nan = false
    ∧ Run goStdlib
        (serving (bytesOf "\x7b\"result\":\"success\",\"rates\":\x7b\"EUR\":0.9\x7d\x7d"))
        (bytesOf "inf") (bytesOf "usd") (bytesOf "gbp") []
      = (Exit.printed (F64.inf false) (bytesOf "USD") F64.nan (bytesOf "GBP"),
          [bytesOf "https://open.er-api.com/v6/latest/USD"]) := by
  decide

/-- C6, amended: when the response body is read, unmarshals without error and
has `Result == "success"`, and the rates map has no entry for the target
code, `convertCurrency` reports no error and returns the float64 product
`amount * 0`: a zero with the sign of the amount when the amount is finite,
NaN when the amount is infinite or NaN. -/
theorem convertCurrency_absent_rate (lib : Stdlib) (net : Net) (amount : F64) (src dst : Bytes)
    (w : World) (body : Bytes) (er : ExchangeRates)
    (hget : net (apiBase ++ src) = some ⟨some body⟩)
    (hjson : lib.unmarshal body = (er, none))
    (hres : er.Result = bytesOf "success")
    (hrate : er.Rates.lookup dst = none) :
    (convertCurrency lib net amount src dst w).1 = (F64.mul amount F64.zero, none)
    ∧ (∀ neg m e, amount = F64.finite neg m e →
        F64.mul amount F64.zero = F64.finite neg 0 (-1074))
    ∧ ((amount = F64.nan ∨ ∃ neg, amount = F64.inf neg) → F64.mul amount F64.zero = F64.nan) := by
  refine ⟨?_, ?_, ?_⟩
  · simp [convertCurrency, hget, hjson, hres, index_of_absent _ _ hrate]
  · rintro neg m e rfl
    exact mul_zero_of_finite neg m e
  · rintro (rfl | ⟨neg, rfl⟩) <;> simp [F64.mul, F64.zero]

/-- C6 amended, at the input of the claim: with the response
`{"result":"success","rates":{"EUR":0.9}}` and the target GBP, converting 100
gives 0.0 and no error; so do a response without `rates` and one whose
`rates` is `null`; converting -5 gives the negative zero. -/
theorem convertCurrency_absent_rate_witness :
    (convertCurrency goStdlib
        (serving (bytesOf "\x7b\"result\":\"success\",\"rates\":\x7b\"EUR\":0.9\x7d\x7d"))
        (lit "100") (bytesOf "USD") (bytesOf "GBP") []).1 = (F64.zero, none)
    ∧ (convertCurrency goStdlib (serving (bytesOf "\x7b\"result\":\"success\"\x7d"))
        (lit "100") (bytesOf "USD") (bytesOf "GBP") []).1 = (F64.zero, none)
    ∧ (convertCurrency goStdlib
        (serving (bytesOf "\x7b\"result\":\"success\",\"rates\":null\x7d"))
        (lit "100") (bytesOf "USD") (bytesOf "GBP") []).1 = (F64.zero, none)
    ∧ (convertCurrency goStdlib
        (serving (bytesOf "\x7b\"result\":\"success\",\"rates\":\x7b\"EUR\":0.9\x7d\x7d"))
        (lit "-5") (bytesOf "USD") (bytesOf "GBP") []).1 = (F64.finite true 0 (-1074), none) :=
  ⟨((convertCurrency_absent_rate goStdlib
      (serving (bytesOf "\x7b\"result\":\"success\",\"rates\":\x7b\"EUR\":0.9\x7d\x7d"))
      (lit "100") (bytesOf "USD") (bytesOf "GBP") []
      (bytesOf "\x7b\"result\":\"success\",\"rates\":\x7b\"EUR\":0.9\x7d\x7d")
      ⟨bytesOf "success", [], [], [], 0, [], 0, [], 0, [], [(bytesOf "EUR", lit "0.9")]⟩
      rfl (by decide) rfl (by decide)).1).trans (by decide),
   ((convertCurrency_absent_rate goStdlib (serving (bytesOf "\x7b\"result\":\"success\"\x7d"))
      (lit "100") (bytesOf "USD") (bytesOf "GBP") []
      (bytesOf "\x7b\"result\":\"success\"\x7d")
      ⟨bytesOf "success", [], [], [], 0, [], 0, [], 0, [], []⟩
      rfl (by decide) rfl (by decide)).1).trans (by decide),
   ((convertCurrency_absent_rate goStdlib
      (serving (bytesOf "\x7b\"result\":\"success\",\"rates\":null\x7d"))
      (lit "100") (bytesOf "USD") (bytesOf "GBP") []
      (bytesOf "\x7b\"result\":\"success\",\"rates\":null\x7d")
      ⟨bytesOf "success", [], [], [], 0, [], 0, [], 0, [], []⟩
      rfl (by decide) rfl (by decide)).1).trans (by decide),
   ((convertCurrency_absent_rate goStdlib
      (serving (bytesOf "\x7b\"result\":\"success\",\"rates\":\x7b\"EUR\":0.9\x7d\x7d"))
      (lit "-5") (bytesOf "USD") (bytesOf "GBP") []
      (bytesOf "\x7b\"result\":\"success\",\"rates\":\x7b\"EUR\":0.9\x7d\x7d")
      ⟨bytesOf "success", [], [], [], 0, [], 0, [], 0, [], [(bytesOf "EUR", lit "0.9")]⟩
      rfl (by decide) rfl (by decide)).1).trans (by decide)⟩

/-- C7: `convertCurrency` always returns: either a value and no error, or the
value 0 and one of its four errors. Whenever the body that was read does not
unmarshal, whatever the error and whatever `json.Unmarshal` left in the
struct, the result is the value 0 and `ParseError`. -/
theorem convertCurrency_total (lib : Stdlib) (net : Net) (amount : F64) (src dst : Bytes)
    (w : World) :
    ((∃ v, (convertCurrency lib net amount src dst w).1 = (v, none))
      ∨ (∃ err, (err = NetworkError ∨ err = ReadError ∨ err = ParseError ∨ err = UpstreamError)
          ∧ (convertCurrency lib net amount src dst w).1 = (F64.zero, some err)))
    ∧ (∀ body er e, net (apiBase ++ src) = some ⟨some body⟩ →
        lib.unmarshal body = (er, some e) →
        (convertCurrency lib net amount src dst w).1 = (F64.zero, some ParseError)) := by
  constructor
  · rcases hn : net (apiBase ++ src) with _ | ⟨_ | body⟩
    · exact Or.inr ⟨NetworkError, by simp, by simp [convertCurrency, hn]⟩
    · exact Or.inr ⟨ReadError, by simp, by simp [convertCurrency, hn]⟩
    · rcases hj : lib.unmarshal body with ⟨er, _ | e⟩
      · by_cases hr : er.Result = bytesOf "success"
        · exact Or.inl ⟨F64.mul amount (er.Rates.index dst), by simp [convertCurrency, hn, hj, hr]⟩
        · exact Or.inr ⟨UpstreamError, by simp, by simp [convertCurrency, hn, hj, hr]⟩
      · exact Or.inr ⟨ParseError, by simp, by simp [convertCurrency, hn, hj]⟩
  · intro body er e hget hjson
    simp [convertCurrency, hget, hjson]

/-- C7, at the input of the claim, the body `{not json`, and at two bodies
that are JSON of the wrong shape: an array, and an object whose
`time_eol_unix` is a string. -/
theorem convertCurrency_total_witness :
    (convertCurrency goStdlib (serving (bytesOf "\x7bnot json"))
        (lit "100") (bytesOf "USD") (bytesOf "EUR") []).1 = (F64.zero, some ParseError)
    ∧ (convertCurrency goStdlib (serving (bytesOf "[]"))
        (lit "100") (bytesOf "USD") (bytesOf "EUR") []).1 = (F64.zero, some ParseError)
    ∧ (convertCurrency goStdlib
        (serving (bytesOf "\x7b\"result\":\"success\",\"time_eol_unix\":\"never\"\x7d"))
        (lit "100") (bytesOf "USD") (bytesOf "EUR") []).1 = (F64.zero, some ParseError) :=
  ⟨(convertCurrency_total goStdlib (serving (bytesOf "\x7bnot json"))
      (lit "100") (bytesOf "USD") (bytesOf "EUR") []).2 (bytesOf "\x7bnot json")
      ExchangeRates.zero JsonError.SyntaxError rfl (by decide),
   (convertCurrency_total goStdlib (serving (bytesOf "[]"))
      (lit "100") (bytesOf "USD") (bytesOf "EUR") []).2 (bytesOf "[]")
      ExchangeRates.zero JsonError.UnmarshalTypeError rfl (by decide),
   (convertCurrency_total goStdlib
      (serving (bytesOf "\x7b\"result\":\"success\",\"time_eol_unix\":\"never\"\x7d"))
      (lit "100") (bytesOf "USD") (bytesOf "EUR") []).2
      (bytesOf "\x7b\"result\":\"success\",\"time_eol_unix\":\"never\"\x7d")
      ⟨bytesOf "success", [], [], [], 0, [], 0, [], 0, [], []⟩
      JsonError.UnmarshalTypeError rfl (by decide)⟩

/-- C8 as stated fails: the bodies `{"result":"success","rates":{"EUR":0.9}}`
and `{"result":"success","rates":{"EUR":0.9},"provider":1}` are JSON objects
with the same `result` and the same `rates["EUR"]`, and differ in a metadata
field only; the first converts 100 to 90.0, the second ends in `ParseError`,
because `provider` is declared a string. -/
theorem metadata_type_matters :
    parseJSON (bytesOf "\x7b\"result\":\"success\",\"rates\":\x7b\"EUR\":0.9\x7d\x7d")
      = some (JSON.obj [(bytesOf "result", JSON.str (bytesOf "success")),
          (bytesOf "rates", JSON.obj [(bytesOf "EUR", JSON.num (bytesOf "0.9"))])])
    ∧ parseJSON
        (bytesOf "\x7b\"result\":\"success\",\"rates\":\x7b\"EUR\":0.9\x7d,\"provider\":1\x7d")
      = some (JSON.obj [(bytesOf "result", JSON.str (bytesOf "success")),
          (bytesOf "rates", JSON.obj [(bytesOf "EUR", JSON.num (bytesOf "0.9"))]),
          (bytesOf "provider", JSON.num (bytesOf "1"))])
    ∧ (parseJSON (bytesOf "\x7b\"result\":\"success\",\"rates\":\x7b\"EUR\":0.9\x7d\x7d")).bind
          (fun j => j.member (bytesOf "result"))
      = (parseJSON (bytesOf
          "\x7b\"result\":\"success\",\"rates\":\x7b\"EUR\":0.9\x7d,\"provider\":1\x7d")).bind
          (fun j => j.member (bytesOf "result"))
    ∧ (parseJSON (bytesOf "\x7b\"result\":\"success\",\"rates\":\x7b\"EUR\":0.9\x7d\x7d")).bind
          (fun j => (j.member (bytesOf "rates")).bind (fun r => r.member (bytesOf "EUR")))
      = (parseJSON (bytesOf
          "\x7b\"result\":\"success\",\"rates\":\x7b\"EUR\":0.9\x7d,\"provider\":1\x7d")).bind
          (fun j => (j.member (bytesOf "rates")).bind (fun r => r.member (bytesOf "EUR")))
    ∧ (convertCurrency goStdlib
        (serving (bytesOf "\x7b\"result\":\"success\",\"rates\":\x7b\"EUR\":0.9\x7d\x7d"))
        (lit "100") (bytesOf "USD") (bytesOf "EUR") []).1 = (lit "90.0", none)
    ∧ (convertCurrency goStdlib
        (serving
          (bytesOf "\x7b\"result\":\"success\",\"rates\":\x7b\"EUR\":0.9\x7d,\"provider\":1\x7d"))
        (lit "100") (bytesOf "USD") (bytesOf "EUR") []).1 = (F64.zero, some ParseError) :=
  ⟨rfl, rfl, rfl, rfl, by decide, by decide⟩

/-- C8, amended: of a response body that unmarshals, only `Result` and the
entry of the target code in `Rates` are consulted. For every amount and target
code and every two bodies that both unmarshal without error, into structs
with the same `Result` and the same entry of `Rates` under the target code
(the same number, or absent in both), `convertCurrency` returns the same
value and the same error or absence of error. -/
theorem convertCurrency_consults (lib : Stdlib) (net1 net2 : Net) (amount : F64)
    (src dst : Bytes) (w : World) (body1 body2 : Bytes) (er1 er2 : ExchangeRates)
    (hget1 : net1 (apiBase ++ src) = some ⟨some body1⟩)
    (hget2 : net2 (apiBase ++ src) = some ⟨some body2⟩)
    (hjson1 : lib.unmarshal body1 = (er1, none))
    (hjson2 : lib.unmarshal body2 = (er2, none))
    (hres : er1.Result = er2.Result)
    (hrate : er1.Rates.lookup dst = er2.Rates.lookup dst) :
    (convertCurrency lib net1 amount src dst w).1
      = (convertCurrency lib net2 amount src dst w).1 := by
  have hidx : er1.Rates.index dst = er2.Rates.index dst := by
    simp [RateMap.index, hrate]
  simp [convertCurrency, hget1, hget2, hjson1, hjson2, hres, hidx]

/-- C8 amended, at two bodies that differ in the metadata and in the other
rates: both convert 100 USD to 90.0 EUR. -/
theorem convertCurrency_consults_witness :
    (convertCurrency goStdlib
        (serving (bytesOf "\x7b\"result\":\"success\",\"rates\":\x7b\"EUR\":0.9\x7d\x7d"))
        (lit "100") (bytesOf "USD") (bytesOf "EUR") []).1
      = (convertCurrency goStdlib
        (serving (bytesOf
          "\x7b\"provider\":\"x\",\"rates\":\x7b\"GBP\":2,\"EUR\":0.9\x7d,\"result\":\"success\"\x7d"))
        (lit "100") (bytesOf "USD") (bytesOf "EUR") []).1 :=
  convertCurrency_consults goStdlib
    (serving (bytesOf "\x7b\"result\":\"success\",\"rates\":\x7b\"EUR\":0.9\x7d\x7d"))
    (serving (bytesOf
      "\x7b\"provider\":\"x\",\"rates\":\x7b\"GBP\":2,\"EUR\":0.9\x7d,\"result\":\"success\"\x7d"))
    (lit "100") (bytesOf "USD") (bytesOf "EUR") []
    (bytesOf "\x7b\"result\":\"success\",\"rates\":\x7b\"EUR\":0.9\x7d\x7d")
    (bytesOf
      "\x7b\"provider\":\"x\",\"rates\":\x7b\"GBP\":2,\"EUR\":0.9\x7d,\"result\":\"success\"\x7d")
    ⟨bytesOf "success", [], [], [], 0, [], 0, [], 0, [], [(bytesOf "EUR", lit "0.9")]⟩
    ⟨bytesOf "success", bytesOf "x", [], [], 0, [], 0, [], 0, [],
      [(bytesOf "EUR", lit "0.9"), (bytesOf "GBP", lit "2")]⟩
    rfl rfl (by decide) (by decide) rfl (by decide)

/-! ### The command -/

theorem convertCurrency_world (lib : Stdlib) (net : Net) (amount : F64) (src dst : Bytes)
    (w : World) : (convertCurrency lib net amount src dst w).2 = w ++ [apiBase ++ src] := by
  rcases hn : net (apiBase ++ src) with _ | ⟨_ | body⟩
  · simp [convertCurrency, hn]
  · simp [convertCurrency, hn]
  · rcases hj : lib.unmarshal body with ⟨er, _ | e⟩
    · by_cases hr : er.Result = bytesOf "success" <;> simp [convertCurrency, hn, hj, hr]
    · simp [convertCurrency, hn, hj]

theorem finish_world (amount : F64) (s t : Bytes) (r : (F64 × Option Error) × World) :
    (finish amount s t r).2 = r.2 := by
  rcases r with ⟨⟨v, _ | e⟩, w1⟩ <;> rfl

theorem Run_of_valid (lib : Stdlib) (net : Net) (a s t : Bytes) (w : World)
    (ha : (lib.parseFloat a).2 = none) (hs : ThreeLetters s) (ht : ThreeLetters t) :
    Run lib net a s t w =
      finish (lib.parseFloat a).1 (uppercase s) (uppercase t)
        (convertCurrency lib net (lib.parseFloat a).1 (uppercase s) (uppercase t) w) := by
  unfold Run
  rw [validateAmount_of_ok lib a ha]
  simp only []
  rw [validateCurrencyCodes_of_valid lib s t hs ht]
  simp only []
  rcases convertCurrency lib net (lib.parseFloat a).1 (uppercase s) (uppercase t) w
    with ⟨⟨v, _ | e⟩, w1⟩ <;> rfl

theorem Run_of_bad_amount (lib : Stdlib) (net : Net) (a s t : Bytes) (w : World)
    (ha : (lib.parseFloat a).2 ≠ none) :
    Run lib net a s t w = (Exit.fatal InvalidAmount, w) := by
  unfold Run
  rw [validateAmount_of_err lib a ha]

theorem Run_of_bad_codes (lib : Stdlib) (net : Net) (a s t : Bytes) (w : World)
    (ha : (lib.parseFloat a).2 = none) (h : ¬ (ThreeLetters s ∧ ThreeLetters t)) :
    Run lib net a s t w = (Exit.fatal InvalidCurrencyCode, w) := by
  unfold Run
  rw [validateAmount_of_ok lib a ha]
  simp only []
  rw [validateCurrencyCodes_of_invalid lib s t h]

/-- C9: the run is linear and the first failure ends it. An amount that does
not parse ends the run with `InvalidAmount`, whatever the codes are; a valid
amount with a code that is not three letters ends it with
`InvalidCurrencyCode`; in both cases no request has been made. When both
validations succeed exactly one request is made. -/
theorem Run_linear (lib : Stdlib) (net : Net) (a s t : Bytes) (w : World) :
    ((lib.parseFloat a).2 ≠ none → Run lib net a s t w = (Exit.fatal InvalidAmount, w))
    ∧ ((lib.parseFloat a).2 = none → ¬ (ThreeLetters s ∧ ThreeLetters t) →
        Run lib net a s t w = (Exit.fatal InvalidCurrencyCode, w))
    ∧ ((lib.parseFloat a).2 = none → ThreeLetters s → ThreeLetters t →
        (Run lib net a s t w).2 = w ++ [apiBase ++ uppercase s])
    ∧ ((Run lib net a s t w).2 ≠ w →
        (lib.parseFloat a).2 = none ∧ ThreeLetters s ∧ ThreeLetters t) := by
  refine ⟨Run_of_bad_amount lib net a s t w, Run_of_bad_codes lib net a s t w, ?_, ?_⟩
  · intro ha hs ht
    rw [Run_of_valid lib net a s t w ha hs ht, finish_world, convertCurrency_world]
  · intro hw
    by_cases ha : (lib.parseFloat a).2 = none
    · by_cases hc : ThreeLetters s ∧ ThreeLetters t
      · exact ⟨ha, hc⟩
      · rw [Run_of_bad_codes lib net a s t w ha hc] at hw
        exact absurd rfl hw
    · rw [Run_of_bad_amount lib net a s t w ha] at hw
      exact absurd rfl hw

/-- C9, at concrete command lines: a bad amount with good codes, a bad amount
with bad codes, a good amount with a bad code (no request in all three), and a
good command line (one request). -/
theorem Run_linear_witness :
    Run goStdlib (serving (bytesOf "\x7b\"result\":\"fail\"\x7d"))
        (bytesOf "ten") (bytesOf "usd") (bytesOf "eur") [] = (Exit.fatal InvalidAmount, [])
    ∧ Run goStdlib (serving (bytesOf "\x7b\"result\":\"fail\"\x7d"))
        (bytesOf "ten") (bytesOf "dollar") (bytesOf "eur") [] = (Exit.fatal InvalidAmount, [])
    ∧ Run goStdlib (serving (bytesOf "\x7b\"result\":\"fail\"\x7d"))
        (bytesOf "10") (bytesOf "usd") (bytesOf "euro") []
        = (Exit.fatal InvalidCurrencyCode, [])
    ∧ (Run goStdlib (serving (bytesOf "\x7b\"result\":\"fail\"\x7d"))
        (bytesOf "10") (bytesOf "usd") (bytesOf "eur") []).2
        = [bytesOf "https://open.er-api.com/v6/latest/USD"] :=
  ⟨(Run_linear goStdlib (serving (bytesOf "\x7b\"result\":\"fail\"\x7d"))
      (bytesOf "ten") (bytesOf "usd") (bytesOf "eur") []).1 (by decide),
   (Run_linear goStdlib (serving (bytesOf "\x7b\"result\":\"fail\"\x7d"))
      (bytesOf "ten") (bytesOf "dollar") (bytesOf "eur") []).1 (by decide),
   (Run_linear goStdlib (serving (bytesOf "\x7b\"result\":\"fail\"\x7d"))
      (bytesOf "10") (bytesOf "usd") (bytesOf "euro") []).2.1 (by decide) (by decide),
   ((Run_linear goStdlib (serving (bytesOf "\x7b\"result\":\"fail\"\x7d"))
      (bytesOf "10") (bytesOf "usd") (bytesOf "eur") []).2.2.1
      (by decide) (by decide) (by decide)).trans (by decide)⟩

/-- C10: in every run that reaches the network call, the one URL requested is
`https://open.er-api.com/v6/latest/` followed by the upper-cased source code,
which is exactly three bytes in `'A'..'Z'`; and `convertCurrency` is called
with the upper-cased target code, three bytes in `'A'..'Z'` as well, which is
the key of the rate lookup. -/
theorem Run_request (lib : Stdlib) (net : Net) (a s t : Bytes) (w : World)
    (hreach : (Run lib net a s t w).2 ≠ w) :
    (Run lib net a s t w).2 = w ++ [bytesOf "https://open.er-api.com/v6/latest/" ++ uppercase s]
    ∧ ((uppercase s).length = 3 ∧ ∀ b ∈ uppercase s, 65 ≤ b ∧ b ≤ 90)
    ∧ ((uppercase t).length = 3 ∧ ∀ b ∈ uppercase t, 65 ≤ b ∧ b ≤ 90)
    ∧ Run lib net a s t w =
        finish (lib.parseFloat a).1 (uppercase s) (uppercase t)
          (convertCurrency lib net (lib.parseFloat a).1 (uppercase s) (uppercase t) w) := by
  have hv : (lib.parseFloat a).2 = none ∧ ThreeLetters s ∧ ThreeLetters t := by
    by_cases ha : (lib.parseFloat a).2 = none
    · by_cases hc : ThreeLetters s ∧ ThreeLetters t
      · exact ⟨ha, hc⟩
      · rw [Run_of_bad_codes lib net a s t w ha hc] at hreach
        exact absurd rfl hreach
    · rw [Run_of_bad_amount lib net a s t w ha] at hreach
      exact absurd rfl hreach
  obtain ⟨ha, hs, ht⟩ := hv
  have hrun := Run_of_valid lib net a s t w ha hs ht
  refine ⟨?_, ⟨?_, uppercase_capital s hs.2⟩, ⟨?_, uppercase_capital t ht.2⟩, hrun⟩
  · rw [hrun, finish_world, convertCurrency_world]
    rfl
  · simpa [uppercase] using hs.1
  · simpa [uppercase] using ht.1

/-- C10, at the command line `100 usd Eur`: the request goes to
`https://open.er-api.com/v6/latest/USD` and the rate looked up is that of
`EUR`. -/
theorem Run_request_witness :
    (Run goStdlib
        (serving (bytesOf "\x7b\"result\":\"success\",\"rates\":\x7b\"EUR\":0.9\x7d\x7d"))
        (bytesOf "100") (bytesOf "usd") (bytesOf "Eur") [])
      = (Exit.printed (lit "100") (bytesOf "USD") (lit "90.0") (bytesOf "EUR"),
          [bytesOf "https://open.er-api.com/v6/latest/USD"]) :=
  ((Run_request goStdlib
      (serving (bytesOf "\x7b\"result\":\"success\",\"rates\":\x7b\"EUR\":0.9\x7d\x7d"))
      (bytesOf "100") (bytesOf "usd") (bytesOf "Eur") [] (by decide)).2.2.2).trans (by decide)

end CurrencySwitch
